import Mathlib

/-!
# Power-state core of the reader firmware (lib/hal/HalPowerManager.cpp)

A shallow embedding of `HalPowerManager`: the frequency policy `setPowerSaving`,
the scoped `Lock` (constructor and destructor), the deep-sleep sequence
`startDeepSleep` and the battery query `getBatteryPercentage`.

Conventions of the embedding.

* The singleton `powerManager` and the hardware it drives are carried explicitly
  in a `World`: the fields of the singleton, the CPU frequency the hardware is
  running at, and the list of hardware calls issued so far (oldest first).
* Constants that live in headers outside the translated file (`LOW_POWER_FREQ`,
  `BAT_GPIO0`, the `InputManager` pin numbers) are fields of a `Board` that every
  operation takes as a parameter.
* What the platform answers is an argument of the operation that asks for it:
  `WiFi.getMode()` is the argument `wifiMode`, the result of
  `setCpuFrequencyMhz` is the argument `hwOk`.
* `xSemaphoreTake` / `xSemaphoreGive`, the creation of the mutex and the `LOG_*`
  lines have no effect on the modelled state. `setPowerSaving`, `Lock.ctor`,
  `Lock.dtor` and `run` describe operations that run to completion one after
  another; what other tasks can do inside a `setPowerSaving` call, which takes no
  mutex, is described by `setPowerSavingRead`, `setPowerSavingCall`,
  `setPowerSavingWrite` and `setPowerSavingInterleaved`.
* Loops that may spin forever take a `fuel` bound and report whether they ended.
-/

namespace HalPower

/-! ## Definitions -/

/-- Header constants used by HalPowerManager.cpp and declared elsewhere. -/
structure Board where
  LOW_POWER_FREQ : Int
  BAT_GPIO0 : Nat
  BUTTON_ADC_PIN_1 : Nat
  BUTTON_ADC_PIN_2 : Nat
  POWER_BUTTON_PIN : Nat
  deriving DecidableEq

/-- Concrete constants used to evaluate the model on examples. -/
def sampleBoard : Board :=
  { LOW_POWER_FREQ := 10, BAT_GPIO0 := 0, BUTTON_ADC_PIN_1 := 1,
    BUTTON_ADC_PIN_2 := 2, POWER_BUTTON_PIN := 3 }

/-- The enumeration `HalPowerManager::LockMode`. -/
inductive LockMode where
  | None
  | NormalSpeed
  deriving DecidableEq

/-- The radio mode reported by `WiFi.getMode()`; `WIFI_MODE_NULL` is the value 0. -/
abbrev wifi_mode_t := Nat

/-- The radio is fully disabled. -/
def WIFI_MODE_NULL : wifi_mode_t := 0

/-- Pin configurations passed to `pinMode`. -/
inductive PinMode where
  | INPUT
  | INPUT_PULLDOWN
  deriving DecidableEq

/-- Trigger level of the deep-sleep GPIO wake source. -/
inductive WakeLevel where
  | ESP_GPIO_WAKEUP_GPIO_LOW
  | ESP_GPIO_WAKEUP_GPIO_HIGH
  deriving DecidableEq

/-- Calls into the platform, in the order the code issues them. -/
inductive Event where
  | gpio_hold_dis (pin : Nat)
  | pinMode (pin : Nat) (mode : PinMode)
  | setCpuFrequencyMhz (mhz : Int)
  | isPressed (pressed : Bool)
  | delay (ms : Nat)
  | update
  | gpio_hold_en (pin : Nat)
  | gpio_deep_sleep_hold_en
  | esp_deep_sleep_enable_gpio_wakeup (mask : Nat) (level : WakeLevel)
  | esp_deep_sleep_start
  deriving DecidableEq

/-- The data members of the singleton (the mutex handle carries no state here). -/
structure HalPowerManager where
  normalFreq : Int
  isLowPower : Bool
  currentLockMode : LockMode
  deriving DecidableEq

/-- The singleton together with the hardware it drives. -/
structure World where
  powerManager : HalPowerManager
  cpuFreq : Int
  trace : List Event
  deriving DecidableEq

/-- The platform call `setCpuFrequencyMhz(mhz)`: the call is recorded; when the
platform accepts it (`hwOk`) the CPU runs at `mhz`, otherwise the frequency
stays where it was. Returns the platform's answer. -/
def setCpuFrequencyMhz (hwOk : Bool) (mhz : Int) (w : World) : Bool × World :=
  if hwOk then
    (true, { w with cpuFreq := mhz, trace := w.trace ++ [Event.setCpuFrequencyMhz mhz] })
  else
    (false, { w with trace := w.trace ++ [Event.setCpuFrequencyMhz mhz] })

/-- `HalPowerManager::begin`. -/
def begin (b : Board) (w : World) : World :=
  { w with
    trace := w.trace ++ [Event.gpio_hold_dis b.BAT_GPIO0, Event.pinMode b.BAT_GPIO0 PinMode.INPUT],
    powerManager := { w.powerManager with normalFreq := w.cpuFreq } }

/-- `HalPowerManager::setPowerSaving`. -/
def setPowerSaving (b : Board) (wifiMode : wifi_mode_t) (hwOk : Bool) (enabled : Bool)
    (w : World) : World :=
  if w.powerManager.normalFreq ≤ 0 then
    w
  else
    let enabled := if wifiMode ≠ WIFI_MODE_NULL then false else enabled
    let mode := w.powerManager.currentLockMode
    if mode = LockMode.None ∧ enabled = true ∧ w.powerManager.isLowPower = false then
      let r := setCpuFrequencyMhz hwOk b.LOW_POWER_FREQ w
      if r.1 = false then
        r.2
      else
        { r.2 with powerManager := { r.2.powerManager with isLowPower := true } }
    else if (enabled = false ∨ mode ≠ LockMode.None) ∧ w.powerManager.isLowPower = true then
      let r := setCpuFrequencyMhz hwOk w.powerManager.normalFreq w
      if r.1 = false then
        r.2
      else
        { r.2 with powerManager := { r.2.powerManager with isLowPower := false } }
    else
      w

/-- One `setPowerSaving` call after another, every call made with the radio off
and the frequency call succeeding; `args` lists the arguments, oldest first. -/
def setPowerSavingSeq (b : Board) (args : List Bool) (w : World) : World :=
  args.foldl (fun acc e => setPowerSaving b WIFI_MODE_NULL true e acc) w

/-- The state `begin` leaves: a positive normal frequency equal to the frequency
the CPU runs at, not in low power, no lock held. -/
def AfterBegin (w : World) : Prop :=
  0 < w.powerManager.normalFreq ∧ w.cpuFreq = w.powerManager.normalFreq ∧
    w.powerManager.isLowPower = false ∧ w.powerManager.currentLockMode = LockMode.None

instance decidableAfterBegin (w : World) : Decidable (AfterBegin w) := by
  unfold AfterBegin; infer_instance

/-- The flag and the hardware agree: in low power the CPU runs at
`LOW_POWER_FREQ`, otherwise at `normalFreq`. -/
def Coherent (b : Board) (w : World) : Prop :=
  w.cpuFreq = if w.powerManager.isLowPower then b.LOW_POWER_FREQ else w.powerManager.normalFreq

instance decidableCoherent (b : Board) (w : World) : Decidable (Coherent b w) := by
  unfold Coherent; infer_instance

/-- A freshly booted world whose CPU runs at `mhz`, before `begin`. -/
def bootWorld (mhz : Int) : World :=
  { powerManager := { normalFreq := 0, isLowPower := false, currentLockMode := LockMode.None },
    cpuFreq := mhz, trace := [] }

/-- The invariant carried through a run of `setPowerSaving` calls made without a
lock: initialised, no lock, flag and hardware in agreement. -/
def Unlocked (b : Board) (w : World) : Prop :=
  0 < w.powerManager.normalFreq ∧ w.powerManager.currentLockMode = LockMode.None ∧ Coherent b w

/-- Effective request of a `setPowerSaving` call: the argument, forced to
`false` while the radio is not in `WIFI_MODE_NULL`. -/
def effectiveRequest (wifiMode : wifi_mode_t) (enabled : Bool) : Bool :=
  if wifiMode ≠ WIFI_MODE_NULL then false else enabled

/-- The statement "the CPU is at the low-power frequency iff the last request was
`true`, at the normal frequency iff it was `false`, and `isLowPower` is true
exactly in the first case", for the run with arguments `init ++ [last]`. -/
def EndsWhereLastRequested (b : Board) (w : World) (init : List Bool) (last : Bool) : Prop :=
  ((setPowerSavingSeq b (init ++ [last]) w).cpuFreq = b.LOW_POWER_FREQ ↔ last = true) ∧
  ((setPowerSavingSeq b (init ++ [last]) w).cpuFreq = w.powerManager.normalFreq ↔ last = false) ∧
  ((setPowerSavingSeq b (init ++ [last]) w).powerManager.isLowPower = true ↔ last = true)

/-- A world that booted at 160 MHz, ran `begin`, and entered low power. -/
def lowPowerWorld : World :=
  setPowerSaving sampleBoard WIFI_MODE_NULL true true (begin sampleBoard (bootWorld 160))

/-- A world that booted at 160 MHz, ran `begin`, and in which a lock was then
taken (the lock mode is `NormalSpeed`). -/
def lockedWorld : World :=
  { powerManager := { normalFreq := 160, isLowPower := false,
                      currentLockMode := LockMode.NormalSpeed },
    cpuFreq := 160,
    trace := [Event.gpio_hold_dis 0, Event.pinMode 0 PinMode.INPUT] }

/-- A scoped lock instance: its only data member. -/
structure Lock where
  valid : Bool
  deriving DecidableEq

/-- The constructor `HalPowerManager::Lock::Lock`: returns the new instance and
the world it leaves. -/
def Lock.ctor (b : Board) (wifiMode : wifi_mode_t) (hwOk : Bool) (w : World) : Lock × World :=
  let r : Bool × World :=
    if w.powerManager.currentLockMode ≠ LockMode.None then
      (false, w)
    else
      (true, { w with powerManager :=
                { w.powerManager with currentLockMode := LockMode.NormalSpeed } })
  if r.1 then
    ({ valid := r.1 }, setPowerSaving b wifiMode hwOk false r.2)
  else
    ({ valid := r.1 }, r.2)

/-- The destructor `HalPowerManager::Lock::~Lock`. -/
def Lock.dtor (l : Lock) (w : World) : World :=
  if l.valid then
    { w with powerManager := { w.powerManager with currentLockMode := LockMode.None } }
  else
    w

/-- The singleton and hardware together with the `Lock` instances that are
alive, oldest first. -/
structure System where
  world : World
  live : List Lock
  deriving DecidableEq

/-- One step of a client program: construct a lock, destroy the live lock at
position `i`, or call `setPowerSaving`. -/
inductive Op where
  | construct (wifiMode : wifi_mode_t) (hwOk : Bool)
  | destroy (i : Nat)
  | setPowerSaving (wifiMode : wifi_mode_t) (hwOk : Bool) (enabled : Bool)
  deriving DecidableEq

/-- Runs one step; `none` when the step destroys an instance that is not alive. -/
def step (b : Board) (s : System) : Op → Option System
  | Op.construct wifiMode hwOk =>
      some { world := (Lock.ctor b wifiMode hwOk s.world).2,
             live := s.live ++ [(Lock.ctor b wifiMode hwOk s.world).1] }
  | Op.destroy i =>
      match s.live[i]? with
      | none => none
      | some l => some { world := Lock.dtor l s.world, live := s.live.eraseIdx i }
  | Op.setPowerSaving wifiMode hwOk enabled =>
      some { world := setPowerSaving b wifiMode hwOk enabled s.world, live := s.live }

/-- Runs a sequence of steps, oldest first. -/
def run (b : Board) : System → List Op → Option System
  | s, [] => some s
  | s, op :: ops =>
      match step b s op with
      | none => none
      | some s1 => run b s1 ops

/-- Number of live instances whose `valid` flag is set. -/
def validCount (s : System) : Nat :=
  s.live.countP (fun l => l.valid)

/-- The lock mode and the live instances agree: either the mode is
`NormalSpeed` and exactly one live instance is valid, or the mode is `None` and
no live instance is valid. -/
def LockInv (s : System) : Prop :=
  (s.world.powerManager.currentLockMode = LockMode.NormalSpeed ∧ validCount s = 1) ∨
  (s.world.powerManager.currentLockMode = LockMode.None ∧ validCount s = 0)

/-- A system in which one valid lock is alive, taken right after `begin`. -/
def lockedSystem : System :=
  { world := lockedWorld, live := [{ valid := true }] }

/-- The button-release wait of `startDeepSleep`. `readings k` is the answer of
`gpio.isPressed(BTN_POWER)` after `k` calls of `gpio.update()`; `k` is the
number of updates made so far and `fuel` bounds the number of polls. Returns
the calls issued and whether the loop was left (`false`: still polling when the
fuel ran out). -/
def waitForRelease (readings : Nat → Bool) : Nat → Nat → List Event × Bool
  | 0, _ => ([], false)
  | fuel + 1, k =>
      if readings k then
        (Event.isPressed true :: Event.delay 50 :: Event.update ::
            (waitForRelease readings fuel (k + 1)).1,
          (waitForRelease readings fuel (k + 1)).2)
      else
        ([Event.isPressed false], true)

/-- `HalPowerManager::startDeepSleep`: the calls issued, oldest first, and
whether the sequence ran to the deep-sleep entry. -/
def startDeepSleep (b : Board) (readings : Nat → Bool) (fuel : Nat) : List Event × Bool :=
  if (waitForRelease readings fuel 0).2 then
    ((waitForRelease readings fuel 0).1 ++
      [Event.pinMode b.BUTTON_ADC_PIN_1 PinMode.INPUT_PULLDOWN,
       Event.pinMode b.BUTTON_ADC_PIN_2 PinMode.INPUT_PULLDOWN,
       Event.pinMode b.BAT_GPIO0 PinMode.INPUT_PULLDOWN,
       Event.gpio_hold_en b.BUTTON_ADC_PIN_1,
       Event.gpio_hold_en b.BUTTON_ADC_PIN_2,
       Event.gpio_hold_en b.BAT_GPIO0,
       Event.gpio_hold_en b.POWER_BUTTON_PIN,
       Event.gpio_deep_sleep_hold_en,
       Event.esp_deep_sleep_enable_gpio_wakeup ((1 <<< b.POWER_BUTTON_PIN) % 2 ^ 64)
         WakeLevel.ESP_GPIO_WAKEUP_GPIO_LOW,
       Event.esp_deep_sleep_start],
     true)
  else
    ((waitForRelease readings fuel 0).1, false)

/-- The calls of `n` loop iterations that each read "pressed". -/
def pressedPolls : Nat → List Event
  | 0 => []
  | n + 1 => Event.isPressed true :: Event.delay 50 :: Event.update :: pressedPolls n

/-- Calls made by the wait loop. -/
def Event.isWaitEvent : Event → Bool
  | Event.isPressed _ => true
  | Event.delay _ => true
  | Event.update => true
  | _ => false

/-- Pin configurations. -/
def Event.isPinConfig : Event → Bool
  | Event.pinMode _ _ => true
  | _ => false

/-- Per-pin holds and the global deep-sleep hold. -/
def Event.isHold : Event → Bool
  | Event.gpio_hold_en _ => true
  | Event.gpio_deep_sleep_hold_en => true
  | _ => false

/-- Arming of the wake source. -/
def Event.isWakeArming : Event → Bool
  | Event.esp_deep_sleep_enable_gpio_wakeup _ _ => true
  | _ => false

/-- Deep-sleep entry. -/
def Event.isSleepEntry : Event → Bool
  | Event.esp_deep_sleep_start => true
  | _ => false

/-- Every `p` call comes before every `q` call: once a `q` call was made, no `p`
call follows. -/
def allBefore (p q : Event → Bool) : List Event → Bool
  | [] => true
  | e :: rest => (!q e || rest.all (fun x => !p x)) && allBefore p q rest

/-- Button held for the first three polls, released afterwards. -/
def heldForThree : Nat → Bool := fun k => decide (k < 3)

/-! ### Battery query -/

/-- Modelled from the spec: the battery-monitor collaborator `BatteryMonitor`,
whose class is declared outside the translated file. An instance is bound to the
sense pin it was constructed with. -/
structure BatteryMonitor where
  pin : Nat
  deriving DecidableEq

/-- Modelled from the spec: `BatteryMonitor::readPercentage`, a black-box query
that "exposes `readPercentage() -> 0..100`". What the sensor gives at the moment
of the call is the argument `sample`; the query returns it as an `int`. -/
def BatteryMonitor.readPercentage (_m : BatteryMonitor) (sample : Fin 101) : Int :=
  (sample.val : Int)

/-- Calls made on behalf of the battery query: the construction of the sampler
and each `readPercentage()` on a sampler, with the value it answered. -/
inductive BatteryCall where
  | construct (pin : Nat)
  | readPercentage (pin : Nat) (answer : Int)
  deriving DecidableEq

/-- The function-local `static const BatteryMonitor battery` of
`getBatteryPercentage` (`none` until the first call has initialised it) and the
calls made so far, oldest first. -/
structure BatteryState where
  battery : Option BatteryMonitor
  calls : List BatteryCall
  deriving DecidableEq

/-- The state before the first `getBatteryPercentage` call. -/
def BatteryState.fresh : BatteryState :=
  { battery := none, calls := [] }

/-- `HalPowerManager::getBatteryPercentage`: the value returned and the state the
call leaves. The static local is initialised the first time control passes
through its declaration and only then. -/
def getBatteryPercentage (b : Board) (sample : Fin 101) (s : BatteryState) :
    Int × BatteryState :=
  match s.battery with
  | some battery =>
      (battery.readPercentage sample,
        { battery := some battery,
          calls := s.calls ++
            [BatteryCall.readPercentage battery.pin (battery.readPercentage sample)] })
  | none =>
      let battery : BatteryMonitor := { pin := b.BAT_GPIO0 }
      (battery.readPercentage sample,
        { battery := some battery,
          calls := s.calls ++
            [BatteryCall.construct b.BAT_GPIO0,
             BatteryCall.readPercentage battery.pin (battery.readPercentage sample)] })

/-- One `getBatteryPercentage` call after another; `samples` lists what the
sensor gives at each call, oldest first. Returns the values the calls returned,
in order, and the final state. -/
def getBatteryPercentageSeq (b : Board) : List (Fin 101) → BatteryState → List Int × BatteryState
  | [], s => ([], s)
  | x :: xs, s =>
      ((getBatteryPercentage b x s).1 :: (getBatteryPercentageSeq b xs (getBatteryPercentage b x s).2).1,
        (getBatteryPercentageSeq b xs (getBatteryPercentage b x s).2).2)

/-- The `readPercentage` calls that answering `samples` produces on the sampler
bound to `pin`. -/
def readCalls (pin : Nat) (samples : List (Fin 101)) : List BatteryCall :=
  samples.map (fun x => BatteryCall.readPercentage pin (x.val : Int))

/-- Constructions of a sampler. -/
def BatteryCall.isConstruct : BatteryCall → Bool
  | BatteryCall.construct _ => true
  | _ => false

/-! ### `setPowerSaving` step by step

`setPowerSaving` takes no mutex: other tasks can run between its read of
`currentLockMode`, its frequency call and its write of `isLowPower`. The three
definitions below are the three stretches of the function between which that can
happen; run back to back they are `setPowerSaving` itself. -/

/-- The locals of a `setPowerSaving` call once line 37 has run: the effective
request and the lock mode the call has read. -/
structure Locals where
  enabled : Bool
  mode : LockMode
  deriving DecidableEq

/-- Lines 25-37 of `setPowerSaving`: the guard, the radio override and the
unsynchronised read of `currentLockMode`. `none` when the call returns at the
guard. -/
def setPowerSavingRead (wifiMode : wifi_mode_t) (enabled : Bool) (w : World) : Option Locals :=
  if w.powerManager.normalFreq ≤ 0 then
    none
  else
    some { enabled := if wifiMode ≠ WIFI_MODE_NULL then false else enabled,
           mode := w.powerManager.currentLockMode }

/-- Lines 39-43 and 47-52 of `setPowerSaving`: the two conditions, tested with the
locals read earlier and `isLowPower` as it is now, and the frequency call.
Returns the value the call is about to store in `isLowPower` (`none` when it
stores nothing) and the world after the frequency call. -/
def setPowerSavingCall (b : Board) (hwOk : Bool) (l : Locals) (w : World) :
    Option Bool × World :=
  if l.mode = LockMode.None ∧ l.enabled = true ∧ w.powerManager.isLowPower = false then
    let r := setCpuFrequencyMhz hwOk b.LOW_POWER_FREQ w
    if r.1 = false then
      (none, r.2)
    else
      (some true, r.2)
  else if (l.enabled = false ∨ l.mode ≠ LockMode.None) ∧ w.powerManager.isLowPower = true then
    let r := setCpuFrequencyMhz hwOk w.powerManager.normalFreq w
    if r.1 = false then
      (none, r.2)
    else
      (some false, r.2)
  else
    (none, w)

/-- Lines 45 and 53 of `setPowerSaving`: the store into `isLowPower`. -/
def setPowerSavingWrite (v : Option Bool) (w : World) : World :=
  match v with
  | none => w
  | some x => { w with powerManager := { w.powerManager with isLowPower := x } }

/-- A `setPowerSaving` call during which other tasks run: `afterRead` is what
they do to the world between the read of the lock mode and the frequency call,
`afterCall` what they do between the frequency call and the store. -/
def setPowerSavingInterleaved (b : Board) (wifiMode : wifi_mode_t) (hwOk : Bool)
    (enabled : Bool) (afterRead afterCall : World → World) (w : World) : World :=
  match setPowerSavingRead wifiMode enabled w with
  | none => w
  | some l =>
      setPowerSavingWrite (setPowerSavingCall b hwOk l (afterRead w)).1
        (afterCall (setPowerSavingCall b hwOk l (afterRead w)).2)

/-- The world in the middle of a `setPowerSaving(true)` call made right after
`begin` at 160 MHz: the frequency call has lowered the CPU to 10 MHz and
`isLowPower` is not stored yet. -/
def midCallWorld : World :=
  (setPowerSavingCall sampleBoard true { enabled := true, mode := LockMode.None }
    (begin sampleBoard (bootWorld 160))).2

/-! ## Theorems -/

/-! ### Auxiliary facts: frequency policy -/

theorem setPowerSaving_normalFreq (b : Board) (wifiMode : wifi_mode_t) (hwOk e : Bool)
    (w : World) :
    (setPowerSaving b wifiMode hwOk e w).powerManager.normalFreq = w.powerManager.normalFreq := by
  simp only [setPowerSaving, setCpuFrequencyMhz]
  split_ifs <;> rfl

theorem setPowerSaving_currentLockMode (b : Board) (wifiMode : wifi_mode_t) (hwOk e : Bool)
    (w : World) :
    (setPowerSaving b wifiMode hwOk e w).powerManager.currentLockMode
      = w.powerManager.currentLockMode := by
  simp only [setPowerSaving, setCpuFrequencyMhz]
  split_ifs <;> rfl

theorem setPowerSaving_coherent (b : Board) (wifiMode : wifi_mode_t) (hwOk e : Bool)
    (w : World) (h : Coherent b w) : Coherent b (setPowerSaving b wifiMode hwOk e w) := by
  unfold Coherent at h ⊢
  simp only [setPowerSaving, setCpuFrequencyMhz]
  split_ifs <;> simp_all

theorem begin_coherent (b : Board) (w : World) (h : w.powerManager.isLowPower = false) :
    Coherent b (begin b w) := by
  simp [Coherent, begin, h]

/-- With no lock, the radio off and the hardware accepting the call, one call
leaves the flag equal to the request. -/
theorem setPowerSaving_unlocked_isLowPower (b : Board) (e : Bool) (w : World)
    (h : Unlocked b w) :
    (setPowerSaving b WIFI_MODE_NULL true e w).powerManager.isLowPower = e := by
  obtain ⟨hn, hm, -⟩ := h
  have hn' : ¬ w.powerManager.normalFreq ≤ 0 := not_le.mpr hn
  simp only [setPowerSaving, setCpuFrequencyMhz]
  cases e <;> cases hl : w.powerManager.isLowPower <;> simp [hn', hm, hl]

theorem setPowerSaving_unlocked (b : Board) (e : Bool) (w : World) (h : Unlocked b w) :
    Unlocked b (setPowerSaving b WIFI_MODE_NULL true e w) := by
  obtain ⟨hn, hm, hc⟩ := h
  exact ⟨by rw [setPowerSaving_normalFreq]; exact hn,
    by rw [setPowerSaving_currentLockMode]; exact hm,
    setPowerSaving_coherent b _ _ _ w hc⟩

theorem setPowerSavingSeq_unlocked (b : Board) (args : List Bool) :
    ∀ w : World, Unlocked b w → Unlocked b (setPowerSavingSeq b args w) := by
  induction args with
  | nil => intro w h; exact h
  | cons e rest ih =>
      intro w h
      exact ih _ (setPowerSaving_unlocked b e w h)

theorem setPowerSavingSeq_normalFreq (b : Board) (args : List Bool) :
    ∀ w : World, (setPowerSavingSeq b args w).powerManager.normalFreq
      = w.powerManager.normalFreq := by
  induction args with
  | nil => intro w; rfl
  | cons e rest ih =>
      intro w
      exact (ih _).trans (setPowerSaving_normalFreq b _ _ e w)

theorem setPowerSavingSeq_append_last (b : Board) (init : List Bool) (last : Bool) (w : World) :
    setPowerSavingSeq b (init ++ [last]) w
      = setPowerSaving b WIFI_MODE_NULL true last (setPowerSavingSeq b init w) := by
  simp [setPowerSavingSeq, List.foldl_append]

/-- Run back to back, the three stretches are `setPowerSaving`. -/
theorem setPowerSavingInterleaved_id (b : Board) (wifiMode : wifi_mode_t) (hwOk e : Bool)
    (w : World) :
    setPowerSavingInterleaved b wifiMode hwOk e id id w = setPowerSaving b wifiMode hwOk e w := by
  simp only [setPowerSavingInterleaved, setPowerSavingRead, setPowerSavingCall,
    setPowerSavingWrite, setPowerSaving, setCpuFrequencyMhz, id]
  by_cases hn : w.powerManager.normalFreq ≤ 0
  · simp [hn]
  · cases hwOk <;> cases e <;> cases hl : w.powerManager.isLowPower <;>
      cases hm : w.powerManager.currentLockMode <;>
      by_cases hr : wifiMode = WIFI_MODE_NULL <;> simp [hn, hr]

/-! ### Auxiliary facts: scoped lock and runs -/

theorem Lock.ctor_held (b : Board) (wifiMode : wifi_mode_t) (hwOk : Bool) (w : World)
    (hm : w.powerManager.currentLockMode = LockMode.NormalSpeed) :
    Lock.ctor b wifiMode hwOk w = ({ valid := false }, w) := by
  simp [Lock.ctor, hm]

theorem Lock.ctor_free (b : Board) (wifiMode : wifi_mode_t) (hwOk : Bool) (w : World)
    (hm : w.powerManager.currentLockMode = LockMode.None) :
    Lock.ctor b wifiMode hwOk w
      = ({ valid := true },
         setPowerSaving b wifiMode hwOk false
           { w with powerManager :=
              { w.powerManager with currentLockMode := LockMode.NormalSpeed } }) := by
  simp [Lock.ctor, hm]

theorem countP_eraseIdx_add {α : Type} (p : α → Bool) :
    ∀ (l : List α) (i : Nat) (x : α), l[i]? = some x →
      (l.eraseIdx i).countP p + (if p x then 1 else 0) = l.countP p := by
  intro l
  induction l with
  | nil => intro i x h; simp at h
  | cons a rest ih =>
      intro i x h
      cases i with
      | zero =>
          simp only [List.getElem?_cons_zero, Option.some.injEq] at h
          subst h
          simp [List.countP_cons]
      | succ j =>
          simp only [List.getElem?_cons_succ] at h
          have := ih j x h
          simp only [List.eraseIdx_cons_succ, List.countP_cons]
          omega

theorem step_lockInv (b : Board) (s t : System) (op : Op) (hs : LockInv s)
    (ht : step b s op = some t) : LockInv t := by
  cases op with
  | construct wifiMode hwOk =>
      simp only [step, Option.some.injEq] at ht
      subst ht
      rcases hs with ⟨hm, hc⟩ | ⟨hm, hc⟩
      · left
        rw [Lock.ctor_held b wifiMode hwOk s.world hm]
        refine ⟨hm, ?_⟩
        simpa [validCount, List.countP_append] using hc
      · left
        rw [Lock.ctor_free b wifiMode hwOk s.world hm]
        refine ⟨by rw [setPowerSaving_currentLockMode], ?_⟩
        simp only [validCount] at hc
        simp [validCount, List.countP_append, hc]
  | destroy i =>
      simp only [step] at ht
      cases hl : s.live[i]? with
      | none => simp [hl] at ht
      | some l =>
          simp only [hl, Option.some.injEq] at ht
          subst ht
          have hcount := countP_eraseIdx_add (fun l : Lock => l.valid) s.live i l hl
          cases hv : l.valid with
          | false =>
              simp only [hv, Bool.false_eq_true, if_false, Nat.add_zero] at hcount
              rcases hs with ⟨hm, hc⟩ | ⟨hm, hc⟩
              · left
                exact ⟨by simpa [Lock.dtor, hv] using hm, by
                  simp only [validCount] at hc ⊢; omega⟩
              · right
                exact ⟨by simpa [Lock.dtor, hv] using hm, by
                  simp only [validCount] at hc ⊢; omega⟩
          | true =>
              simp only [hv, if_true] at hcount
              right
              refine ⟨by simp [Lock.dtor, hv], ?_⟩
              rcases hs with ⟨_, hc⟩ | ⟨_, hc⟩ <;>
                (simp only [validCount] at hc ⊢; omega)
  | setPowerSaving wifiMode hwOk enabled =>
      simp only [step, Option.some.injEq] at ht
      subst ht
      simpa [LockInv, validCount, setPowerSaving_currentLockMode] using hs

theorem run_lockInv (b : Board) (ops : List Op) :
    ∀ s t : System, LockInv s → run b s ops = some t → LockInv t := by
  induction ops with
  | nil =>
      intro s t hs ht
      simp only [run, Option.some.injEq] at ht
      exact ht ▸ hs
  | cons op rest ih =>
      intro s t hs ht
      simp only [run] at ht
      cases h1 : step b s op with
      | none => simp [h1] at ht
      | some s1 =>
          simp only [h1] at ht
          exact ih s1 t (step_lockInv b s s1 op hs h1) ht

/-- A run that succeeds also succeeds when cut after any number of steps. -/
theorem run_take (b : Board) (ops : List Op) :
    ∀ (s t : System) (k : Nat), run b s ops = some t →
      ∃ sk, run b s (ops.take k) = some sk := by
  induction ops with
  | nil => intro s t k _; exact ⟨s, by simp [run]⟩
  | cons op rest ih =>
      intro s t k ht
      cases k with
      | zero => exact ⟨s, by simp [run]⟩
      | succ j =>
          simp only [run] at ht
          cases h1 : step b s op with
          | none => simp [h1] at ht
          | some s1 =>
              simp only [h1] at ht
              obtain ⟨sk, hsk⟩ := ih s1 t j ht
              exact ⟨sk, by simp [run, h1, hsk]⟩

/-- The constructor keeps the flag and the hardware in agreement. -/
theorem Lock.ctor_coherent (b : Board) (wifiMode : wifi_mode_t) (hwOk : Bool) (w : World)
    (h : Coherent b w) : Coherent b (Lock.ctor b wifiMode hwOk w).2 := by
  cases hm : w.powerManager.currentLockMode with
  | None =>
      rw [Lock.ctor_free b wifiMode hwOk w hm]
      exact setPowerSaving_coherent b wifiMode hwOk false _ h
  | NormalSpeed =>
      rw [Lock.ctor_held b wifiMode hwOk w hm]
      exact h

/-- The destructor keeps the flag and the hardware in agreement. -/
theorem Lock.dtor_coherent (b : Board) (l : Lock) (w : World) (h : Coherent b w) :
    Coherent b (Lock.dtor l w) := by
  unfold Lock.dtor
  split_ifs
  · exact h
  · exact h

/-- Every state reached by a run from a coherent state is coherent. -/
theorem run_coherent (b : Board) (ops : List Op) :
    ∀ s t : System, Coherent b s.world → run b s ops = some t → Coherent b t.world := by
  induction ops with
  | nil =>
      intro s t hs ht
      simp only [run, Option.some.injEq] at ht
      exact ht ▸ hs
  | cons op rest ih =>
      intro s t hs ht
      simp only [run] at ht
      cases h1 : step b s op with
      | none => simp [h1] at ht
      | some s1 =>
          simp only [h1] at ht
          refine ih s1 t ?_ ht
          cases op with
          | construct wifiMode hwOk =>
              simp only [step, Option.some.injEq] at h1
              subst h1
              exact Lock.ctor_coherent b wifiMode hwOk s.world hs
          | destroy i =>
              simp only [step] at h1
              cases hl : s.live[i]? with
              | none => simp [hl] at h1
              | some l =>
                  simp only [hl, Option.some.injEq] at h1
                  subst h1
                  exact Lock.dtor_coherent b l s.world hs
          | setPowerSaving wifiMode hwOk enabled =>
              simp only [step, Option.some.injEq] at h1
              subst h1
              exact setPowerSaving_coherent b wifiMode hwOk enabled s.world hs

/-! ### Frequency policy (C1, C2, C3, C8) -/

/-- C1 (as stated) fails when the CPU already runs at `LOW_POWER_FREQ` while
`begin` captures `normalFreq`: after `begin` at 10 MHz and one call
`setPowerSaving(true)` the CPU is at `normalFreq` although the last request was
`true`. -/
theorem equal_frequencies_counterexample :
    AfterBegin (begin sampleBoard (bootWorld 10)) ∧
      ¬ EndsWhereLastRequested sampleBoard (begin sampleBoard (bootWorld 10)) [] true := by
  refine ⟨by decide, ?_⟩
  unfold EndsWhereLastRequested
  decide

/-- C1 (amended): after any non-empty run `init ++ [last]` of `setPowerSaving`
calls from the state `begin` leaves, with no lock, the radio off and the
hardware accepting every call, `isLowPower` equals the last argument and the CPU
runs at `LOW_POWER_FREQ` if it was `true`, at `normalFreq` if it was `false`;
when `normalFreq` differs from `LOW_POWER_FREQ` both are equivalences. -/
theorem setPowerSavingSeq_last (b : Board) (w : World) (init : List Bool) (last : Bool)
    (h : AfterBegin w) :
    (setPowerSavingSeq b (init ++ [last]) w).powerManager.isLowPower = last ∧
    (setPowerSavingSeq b (init ++ [last]) w).powerManager.normalFreq
      = w.powerManager.normalFreq ∧
    (setPowerSavingSeq b (init ++ [last]) w).powerManager.currentLockMode = LockMode.None ∧
    (setPowerSavingSeq b (init ++ [last]) w).cpuFreq
      = (if last then b.LOW_POWER_FREQ else w.powerManager.normalFreq) ∧
    (w.powerManager.normalFreq ≠ b.LOW_POWER_FREQ → EndsWhereLastRequested b w init last) := by
  obtain ⟨hn, hc, hl, hm⟩ := h
  have hu : Unlocked b w := ⟨hn, hm, by simp [Coherent, hl, hc]⟩
  have hu1 := setPowerSavingSeq_unlocked b init w hu
  have hu2 := setPowerSaving_unlocked b last _ hu1
  have hlow := setPowerSaving_unlocked_isLowPower b last _ hu1
  have hnf := setPowerSavingSeq_normalFreq b (init ++ [last]) w
  rw [← setPowerSavingSeq_append_last] at hu2 hlow
  have hcpu : (setPowerSavingSeq b (init ++ [last]) w).cpuFreq
      = (if last then b.LOW_POWER_FREQ else w.powerManager.normalFreq) := by
    have := hu2.2.2
    unfold Coherent at this
    rw [this, hlow, hnf]
  refine ⟨hlow, hnf, hu2.2.1, hcpu, ?_⟩
  intro hne
  unfold EndsWhereLastRequested
  rw [hcpu, hlow]
  cases last
  · simp [hne]
  · simp [Ne.symm hne]

/-- C1 witness: boot at 160 MHz, `begin`, then requests true, false, true end at 10 MHz. -/
theorem setPowerSavingSeq_last_witness :
    AfterBegin (begin sampleBoard (bootWorld 160)) ∧
      (setPowerSavingSeq sampleBoard ([true, false] ++ [true])
        (begin sampleBoard (bootWorld 160))).cpuFreq = 10 :=
  ⟨by decide,
   (setPowerSavingSeq_last sampleBoard (begin sampleBoard (bootWorld 160)) [true, false] true
      (by decide)).2.2.2.1⟩

/-- C2 (as stated) fails: in low power, with the radio on and the hardware
rejecting the frequency call, `setPowerSaving(true)` returns with `isLowPower`
still true. -/
theorem radio_restore_failure_counterexample :
    (1 : wifi_mode_t) ≠ WIFI_MODE_NULL ∧
      (setPowerSaving sampleBoard 1 false true lowPowerWorld).powerManager.isLowPower = true := by
  decide

/-- C2 (amended): when the radio is not in `WIFI_MODE_NULL`, `setPowerSaving(true)`
never turns `isLowPower` on; it returns with `isLowPower` true exactly when the
flag was already true and the call could not restore the normal frequency
(`normalFreq <= 0`, or the hardware rejected the call). -/
theorem setPowerSaving_radio (b : Board) (wifiMode : wifi_mode_t) (hwOk : Bool) (w : World)
    (hr : wifiMode ≠ WIFI_MODE_NULL) :
    ((setPowerSaving b wifiMode hwOk true w).powerManager.isLowPower = true ↔
      w.powerManager.isLowPower = true ∧ (w.powerManager.normalFreq ≤ 0 ∨ hwOk = false)) ∧
    (w.powerManager.isLowPower = false →
      (setPowerSaving b wifiMode hwOk true w).powerManager.isLowPower = false) := by
  simp only [setPowerSaving, setCpuFrequencyMhz]
  by_cases hn : w.powerManager.normalFreq ≤ 0 <;>
    cases hwOk <;> cases hl : w.powerManager.isLowPower <;> simp [hn, hr, hl]

/-- C2 witness: in low power with the radio on, a call the hardware accepts clears `isLowPower`. -/
theorem setPowerSaving_radio_witness :
    (1 : wifi_mode_t) ≠ WIFI_MODE_NULL ∧
      (setPowerSaving sampleBoard 1 true true lowPowerWorld).powerManager.isLowPower = false :=
  ⟨by decide, by
    have h := (setPowerSaving_radio sampleBoard 1 true lowPowerWorld (by decide)).1
    cases hl : (setPowerSaving sampleBoard 1 true true lowPowerWorld).powerManager.isLowPower
    · rfl
    · exact absurd (h.mp hl).2 (by decide)⟩

/-- C3 (as stated) fails when the lock is taken between a call's read of the lock
mode and its frequency call: after `begin` at 160 MHz a `setPowerSaving(true)`
call reads mode `None`, a `Lock` is then constructed (valid, mode `NormalSpeed`,
`isLowPower` false), and the call goes on to lower the CPU to 10 MHz and store
`isLowPower = true` while that lock is valid. -/
theorem stale_lock_mode_counterexample :
    (Lock.ctor sampleBoard WIFI_MODE_NULL true (begin sampleBoard (bootWorld 160))).1.valid = true ∧
    (Lock.ctor sampleBoard WIFI_MODE_NULL true
      (begin sampleBoard (bootWorld 160))).2.powerManager
      = { normalFreq := 160, isLowPower := false, currentLockMode := LockMode.NormalSpeed } ∧
    (setPowerSavingInterleaved sampleBoard WIFI_MODE_NULL true true
      (fun w => (Lock.ctor sampleBoard WIFI_MODE_NULL true w).2) id
      (begin sampleBoard (bootWorld 160))).powerManager
      = { normalFreq := 160, isLowPower := true, currentLockMode := LockMode.NormalSpeed } ∧
    (setPowerSavingInterleaved sampleBoard WIFI_MODE_NULL true true
      (fun w => (Lock.ctor sampleBoard WIFI_MODE_NULL true w).2) id
      (begin sampleBoard (bootWorld 160))).trace
      = [Event.gpio_hold_dis 0, Event.pinMode 0 PinMode.INPUT, Event.setCpuFrequencyMhz 10] := by
  decide

/-- C3 (amended): a `setPowerSaving` call that reads the lock mode while the lock
is held (mode `NormalSpeed` at line 37) never lowers the frequency and never
stores `true` into `isLowPower`, for any argument, radio state and hardware
answer and whatever other tasks do to the world between its steps: if
`isLowPower` is false at its frequency step it makes no call and stores nothing,
if it is true it makes the one restoring call, and `isLowPower` is true after
its store only if it was true just before. Run to completion from a state with
`isLowPower = false` the call changes nothing. -/
theorem setPowerSaving_locked (b : Board) (wifiMode : wifi_mode_t) (hwOk e : Bool) (w : World)
    (hm : w.powerManager.currentLockMode = LockMode.NormalSpeed) :
    (∀ l : Locals, setPowerSavingRead wifiMode e w = some l →
      l.mode = LockMode.NormalSpeed ∧
      ∀ w2 : World,
        (setPowerSavingCall b hwOk l w2).1 ≠ some true ∧
        (w2.powerManager.isLowPower = false → setPowerSavingCall b hwOk l w2 = (none, w2)) ∧
        (w2.powerManager.isLowPower = true →
          (setPowerSavingCall b hwOk l w2).2.trace
            = w2.trace ++ [Event.setCpuFrequencyMhz w2.powerManager.normalFreq]) ∧
        ∀ w3 : World,
          (setPowerSavingWrite (setPowerSavingCall b hwOk l w2).1 w3).powerManager.isLowPower
              = true →
            w3.powerManager.isLowPower = true) ∧
    (w.powerManager.isLowPower = false →
      setPowerSaving b wifiMode hwOk e w = w ∧
      (setPowerSaving b wifiMode hwOk e w).powerManager.isLowPower = false ∧
      (setPowerSaving b wifiMode hwOk e w).trace = w.trace) := by
  constructor
  · intro l hl
    have hmode : l.mode = LockMode.NormalSpeed := by
      unfold setPowerSavingRead at hl
      split_ifs at hl <;>
        (simp only [Option.some.injEq] at hl
         rw [← hl]
         exact hm)
    refine ⟨hmode, ?_⟩
    intro w2
    rcases l with ⟨le, lm⟩
    simp only at hmode
    subst hmode
    simp only [setPowerSavingCall, setCpuFrequencyMhz, setPowerSavingWrite]
    cases hwOk <;> cases hl2 : w2.powerManager.isLowPower <;> simp
  · intro hl
    have heq : setPowerSaving b wifiMode hwOk e w = w := by
      simp only [setPowerSaving, setCpuFrequencyMhz]
      simp [hm, hl]
    rw [heq]
    exact ⟨rfl, hl, rfl⟩

/-- C3 witness: with a lock held after `begin`, `setPowerSaving(true)` changes nothing. -/
theorem setPowerSaving_locked_witness :
    lockedWorld.powerManager.currentLockMode = LockMode.NormalSpeed ∧
      lockedWorld.powerManager.isLowPower = false ∧
      setPowerSaving sampleBoard WIFI_MODE_NULL true true lockedWorld = lockedWorld :=
  ⟨by decide, by decide,
   ((setPowerSaving_locked sampleBoard WIFI_MODE_NULL true true lockedWorld
      (by decide)).2 (by decide)).1⟩

/-- C8: the transition table of `setPowerSaving` on an initialised state, with
`e` the effective request and `m` the lock mode. Row 1 (`m = None`, `e`, not low
power): exactly one call `setCpuFrequencyMhz(LOW_POWER_FREQ)`, the flag becomes
the hardware answer. Row 2 (low power and (`m != None` or not `e`)): exactly one
call `setCpuFrequencyMhz(normalFreq)`, the flag is cleared iff the hardware
accepted. Otherwise nothing changes. On a hardware failure the members of the
singleton and the CPU frequency are unchanged and at most one call was made. -/
theorem setPowerSaving_table (b : Board) (wifiMode : wifi_mode_t) (hwOk enabled : Bool)
    (w : World) (hn : 0 < w.powerManager.normalFreq) :
    (w.powerManager.currentLockMode = LockMode.None ∧ effectiveRequest wifiMode enabled = true ∧
        w.powerManager.isLowPower = false →
      (setPowerSaving b wifiMode hwOk enabled w).trace
          = w.trace ++ [Event.setCpuFrequencyMhz b.LOW_POWER_FREQ] ∧
      (setPowerSaving b wifiMode hwOk enabled w).powerManager
          = { w.powerManager with isLowPower := hwOk }) ∧
    (w.powerManager.isLowPower = true ∧
        (w.powerManager.currentLockMode ≠ LockMode.None ∨
          effectiveRequest wifiMode enabled = false) →
      (setPowerSaving b wifiMode hwOk enabled w).trace
          = w.trace ++ [Event.setCpuFrequencyMhz w.powerManager.normalFreq] ∧
      (setPowerSaving b wifiMode hwOk enabled w).powerManager
          = { w.powerManager with isLowPower := !hwOk }) ∧
    (¬ (w.powerManager.currentLockMode = LockMode.None ∧
          effectiveRequest wifiMode enabled = true ∧ w.powerManager.isLowPower = false) ∧
      ¬ (w.powerManager.isLowPower = true ∧
          (w.powerManager.currentLockMode ≠ LockMode.None ∨
            effectiveRequest wifiMode enabled = false)) →
      setPowerSaving b wifiMode hwOk enabled w = w) ∧
    (hwOk = false →
      (setPowerSaving b wifiMode hwOk enabled w).powerManager = w.powerManager ∧
      (setPowerSaving b wifiMode hwOk enabled w).cpuFreq = w.cpuFreq ∧
      (setPowerSaving b wifiMode hwOk enabled w).trace.length ≤ w.trace.length + 1) := by
  rcases w with ⟨⟨nf, lp, m⟩, cpu, tr⟩
  have hn' : ¬ nf ≤ 0 := not_le.mpr hn
  simp only [setPowerSaving, setCpuFrequencyMhz, effectiveRequest]
  by_cases hr : wifiMode = WIFI_MODE_NULL <;>
    cases hwOk <;> cases enabled <;> cases lp <;> cases m <;> simp [hn', hr]

/-- C8 witness: row 1 of the table right after `begin` at 160 MHz. -/
theorem setPowerSaving_table_witness :
    (0 : Int) < (begin sampleBoard (bootWorld 160)).powerManager.normalFreq ∧
      (setPowerSaving sampleBoard WIFI_MODE_NULL true true
          (begin sampleBoard (bootWorld 160))).trace
        = (begin sampleBoard (bootWorld 160)).trace ++ [Event.setCpuFrequencyMhz 10] :=
  ⟨by decide,
   ((setPowerSaving_table sampleBoard WIFI_MODE_NULL true true
      (begin sampleBoard (bootWorld 160)) (by decide)).1 (by decide)).1⟩

/-! ### Scoped lock (C4, C5, C6, C7) -/

/-- C4: while a first lock is valid (lock mode `NormalSpeed`), constructing a
second lock yields an instance with `valid = false` and leaves the world as it
was (lock mode, `isLowPower`, `normalFreq`, CPU frequency, and no hardware call);
destroying that instance leaves the world as it was too; constructing and then
destroying the second lock gives back the system it started from, the earlier
live locks and their `valid` flags included. -/
theorem second_lock_inert (b : Board) (wifiMode : wifi_mode_t) (hwOk : Bool) (s : System)
    (hm : s.world.powerManager.currentLockMode = LockMode.NormalSpeed) :
    (Lock.ctor b wifiMode hwOk s.world).1.valid = false ∧
    (Lock.ctor b wifiMode hwOk s.world).2 = s.world ∧
    Lock.dtor (Lock.ctor b wifiMode hwOk s.world).1 (Lock.ctor b wifiMode hwOk s.world).2
      = s.world ∧
    step b s (Op.construct wifiMode hwOk)
      = some { world := s.world, live := s.live ++ [{ valid := false }] } ∧
    run b s [Op.construct wifiMode hwOk, Op.destroy s.live.length] = some s := by
  have hc := Lock.ctor_held b wifiMode hwOk s.world hm
  refine ⟨by rw [hc], by rw [hc], by rw [hc]; simp [Lock.dtor], by simp [step, hc], ?_⟩
  simp [run, step, hc, Lock.dtor, List.eraseIdx_append_of_length_le]

/-- C4 witness: one valid lock alive, a second one is constructed and destroyed. -/
theorem second_lock_inert_witness :
    lockedSystem.world.powerManager.currentLockMode = LockMode.NormalSpeed ∧
      run sampleBoard lockedSystem [Op.construct WIFI_MODE_NULL true, Op.destroy 1]
        = some lockedSystem :=
  ⟨by decide, (second_lock_inert sampleBoard WIFI_MODE_NULL true lockedSystem (by decide)).2.2.2.2⟩

/-- C6: along every run of lock constructions, destructions of live instances
and `setPowerSaving` calls that starts with lock mode `None` and no live lock,
after every step at most one live instance is valid, the lock mode is
`NormalSpeed` iff exactly one live instance is valid, and it is `None` iff no
live instance is valid. -/
theorem lock_mode_tracks_valid (b : Board) (w : World) (ops : List Op) (s : System)
    (hm : w.powerManager.currentLockMode = LockMode.None)
    (hrun : run b { world := w, live := [] } ops = some s) :
    ∀ k : Nat, ∃ sk : System,
      run b { world := w, live := [] } (ops.take k) = some sk ∧
      validCount sk ≤ 1 ∧
      (sk.world.powerManager.currentLockMode = LockMode.NormalSpeed ↔ validCount sk = 1) ∧
      (sk.world.powerManager.currentLockMode = LockMode.None ↔ validCount sk = 0) := by
  intro k
  obtain ⟨sk, hsk⟩ := run_take b ops _ s k hrun
  have h0 : LockInv { world := w, live := [] } := Or.inr ⟨hm, by simp [validCount]⟩
  have hinv := run_lockInv b (ops.take k) _ sk h0 hsk
  refine ⟨sk, hsk, ?_⟩
  rcases hinv with ⟨h1, h2⟩ | ⟨h1, h2⟩ <;> simp [h1, h2]

/-- C6 witness: two constructions, a policy call and two destructions, observed after three steps. -/
theorem lock_mode_tracks_valid_witness :
    ∃ sk : System,
      run sampleBoard { world := begin sampleBoard (bootWorld 160), live := [] }
        ([Op.construct 0 true, Op.construct 0 true, Op.setPowerSaving 0 true true,
          Op.destroy 0, Op.destroy 0].take 3) = some sk ∧
      validCount sk ≤ 1 ∧
      (sk.world.powerManager.currentLockMode = LockMode.NormalSpeed ↔ validCount sk = 1) ∧
      (sk.world.powerManager.currentLockMode = LockMode.None ↔ validCount sk = 0) :=
  lock_mode_tracks_valid sampleBoard (begin sampleBoard (bootWorld 160))
    [Op.construct 0 true, Op.construct 0 true, Op.setPowerSaving 0 true true,
      Op.destroy 0, Op.destroy 0]
    { world := begin sampleBoard (bootWorld 160), live := [] }
    (by decide) (by decide) 3

/-- C7 (as stated) fails in the middle of another task's `setPowerSaving(true)`
call, after its frequency call and before its store: the state is initialised,
the lock mode is `None`, `isLowPower` is false and the CPU runs at 10 MHz. The
constructor there yields a valid lock, makes no frequency call, and returns with
the CPU at 10 MHz, not at `normalFreq` = 160 MHz. -/
theorem mid_call_lock_counterexample :
    (0 : Int) < midCallWorld.powerManager.normalFreq ∧
    midCallWorld.powerManager.currentLockMode = LockMode.None ∧
    midCallWorld.powerManager.isLowPower = false ∧
    (Lock.ctor sampleBoard WIFI_MODE_NULL true midCallWorld).1.valid = true ∧
    (Lock.ctor sampleBoard WIFI_MODE_NULL true midCallWorld).2.trace = midCallWorld.trace ∧
    (Lock.ctor sampleBoard WIFI_MODE_NULL true midCallWorld).2.cpuFreq = 10 ∧
    (Lock.ctor sampleBoard WIFI_MODE_NULL true midCallWorld).2.cpuFreq
      ≠ midCallWorld.powerManager.normalFreq := by
  decide

/-- C7 (amended): in an initialised state with lock mode `None`, for either value
of `isLowPower`, any radio state and any CPU frequency, the constructor yields
`valid = true`, sets the lock mode to `NormalSpeed` and then runs
`setPowerSaving(false)`; when the frequency call succeeds it returns with
`isLowPower = false`. If `isLowPower` was true it makes the one call
`setCpuFrequencyMhz(normalFreq)` and, on success, the CPU runs at `normalFreq`;
if `isLowPower` was already false it makes no hardware call and leaves the CPU
frequency as it was. So the CPU runs at `normalFreq` on return whenever the flag
agreed with the hardware when the constructor started. -/
theorem lock_acquire_restores (b : Board) (wifiMode : wifi_mode_t) (hwOk : Bool) (w : World)
    (hn : 0 < w.powerManager.normalFreq)
    (hm : w.powerManager.currentLockMode = LockMode.None) :
    (Lock.ctor b wifiMode hwOk w).1.valid = true ∧
    (Lock.ctor b wifiMode hwOk w).2
      = setPowerSaving b wifiMode hwOk false
          { w with powerManager :=
            { w.powerManager with currentLockMode := LockMode.NormalSpeed } } ∧
    (Lock.ctor b wifiMode hwOk w).2.powerManager.currentLockMode = LockMode.NormalSpeed ∧
    (Lock.ctor b wifiMode hwOk w).2.powerManager.normalFreq = w.powerManager.normalFreq ∧
    (hwOk = true → (Lock.ctor b wifiMode hwOk w).2.powerManager.isLowPower = false) ∧
    (w.powerManager.isLowPower = true →
      (Lock.ctor b wifiMode hwOk w).2.trace
        = w.trace ++ [Event.setCpuFrequencyMhz w.powerManager.normalFreq] ∧
      (hwOk = true → (Lock.ctor b wifiMode hwOk w).2.cpuFreq = w.powerManager.normalFreq)) ∧
    (w.powerManager.isLowPower = false →
      (Lock.ctor b wifiMode hwOk w).2.trace = w.trace ∧
      (Lock.ctor b wifiMode hwOk w).2.powerManager.isLowPower = false ∧
      (Lock.ctor b wifiMode hwOk w).2.cpuFreq = w.cpuFreq) ∧
    (hwOk = true → Coherent b w →
      (Lock.ctor b wifiMode hwOk w).2.cpuFreq = w.powerManager.normalFreq) := by
  rw [Lock.ctor_free b wifiMode hwOk w hm]
  rcases w with ⟨⟨nf, lp, m⟩, cpu, tr⟩
  have hn' : ¬ nf ≤ 0 := not_le.mpr hn
  simp only [Coherent, setPowerSaving, setCpuFrequencyMhz]
  cases lp <;> cases hwOk <;> simp [hn']

/-- C7 witness: a lock taken in low power brings the CPU back to 160 MHz. -/
theorem lock_acquire_restores_witness :
    (0 : Int) < lowPowerWorld.powerManager.normalFreq ∧
      lowPowerWorld.powerManager.currentLockMode = LockMode.None ∧
      lowPowerWorld.powerManager.isLowPower = true ∧
      (Lock.ctor sampleBoard WIFI_MODE_NULL true lowPowerWorld).2.cpuFreq = 160 :=
  ⟨by decide, by decide, by decide,
   ((lock_acquire_restores sampleBoard WIFI_MODE_NULL true lowPowerWorld
      (by decide) (by decide)).2.2.2.2.2.1 (by decide)).2 rfl⟩

/-! ### Auxiliary facts: deep-sleep sequence -/

theorem waitForRelease_released (readings : Nat → Bool) :
    ∀ (n fuel k : Nat), (∀ i, i < n → readings (k + i) = true) → readings (k + n) = false →
      n < fuel →
      waitForRelease readings fuel k = (pressedPolls n ++ [Event.isPressed false], true) := by
  intro n
  induction n with
  | zero =>
      intro fuel k _ hr hf
      obtain ⟨f, rfl⟩ : ∃ f, fuel = f + 1 := ⟨fuel - 1, by omega⟩
      simp only [Nat.add_zero] at hr
      simp [waitForRelease, hr, pressedPolls]
  | succ m ih =>
      intro fuel k hp hr hf
      obtain ⟨f, rfl⟩ : ∃ f, fuel = f + 1 := ⟨fuel - 1, by omega⟩
      have h0 : readings k = true := by simpa using hp 0 (Nat.succ_pos m)
      have hrec := ih f (k + 1)
        (fun i hi => by
          have := hp (i + 1) (by omega)
          rwa [show k + 1 + i = k + (i + 1) by omega])
        (by rwa [show k + 1 + m = k + (m + 1) by omega]) (by omega)
      simp [waitForRelease, h0, hrec, pressedPolls]

theorem waitForRelease_events (readings : Nat → Bool) :
    ∀ (fuel k : Nat), ∀ e ∈ (waitForRelease readings fuel k).1, e.isWaitEvent = true := by
  intro fuel
  induction fuel with
  | zero => intro k e he; simp [waitForRelease] at he
  | succ f ih =>
      intro k e he
      by_cases hk : readings k = true
      · simp only [waitForRelease, hk, if_true, List.mem_cons] at he
        rcases he with rfl | rfl | rfl | he
        · rfl
        · rfl
        · rfl
        · exact ih (k + 1) e he
      · simp only [waitForRelease, hk, Bool.false_eq_true, if_false, List.mem_singleton] at he
        subst he
        rfl

theorem waitForRelease_saw_release (readings : Nat → Bool) :
    ∀ (fuel k : Nat), (waitForRelease readings fuel k).2 = true →
      Event.isPressed false ∈ (waitForRelease readings fuel k).1 := by
  intro fuel
  induction fuel with
  | zero => intro k h; simp [waitForRelease] at h
  | succ f ih =>
      intro k h
      by_cases hk : readings k = true
      · simp only [waitForRelease, hk, if_true] at h ⊢
        simp only [List.mem_cons]
        exact Or.inr (Or.inr (Or.inr (ih (k + 1) h)))
      · simp [waitForRelease, hk]

theorem pressedPolls_countP_wake (n : Nat) :
    (pressedPolls n).countP Event.isWakeArming = 0 := by
  induction n with
  | zero => rfl
  | succ m ih => simp [pressedPolls, List.countP_cons, ih, Event.isWakeArming]

theorem pressedPolls_count_delay (n : Nat) :
    (pressedPolls n).count (Event.delay 50) = n := by
  induction n with
  | zero => rfl
  | succ m ih => simp [pressedPolls, List.count_cons, ih]

theorem pressedPolls_count_update (n : Nat) :
    (pressedPolls n).count Event.update = n := by
  induction n with
  | zero => rfl
  | succ m ih => simp [pressedPolls, List.count_cons, ih]

theorem allBefore_append_left (p q : Event → Bool) (tail : List Event) :
    ∀ pre : List Event, (∀ e ∈ pre, q e = false) →
      allBefore p q (pre ++ tail) = allBefore p q tail := by
  intro pre
  induction pre with
  | nil => intro _; rfl
  | cons a rest ih =>
      intro h
      have ha : q a = false := h a (List.mem_cons_self a rest)
      have hrest := ih (fun e he => h e (List.mem_cons_of_mem a he))
      simp [allBefore, ha, hrest]

theorem isWaitEvent_not_hold (e : Event) (h : e.isWaitEvent = true) : e.isHold = false := by
  cases e <;> simp_all [Event.isWaitEvent, Event.isHold]

theorem isWaitEvent_not_wake (e : Event) (h : e.isWaitEvent = true) :
    e.isWakeArming = false := by
  cases e <;> simp_all [Event.isWaitEvent, Event.isWakeArming]

theorem isWaitEvent_not_entry (e : Event) (h : e.isWaitEvent = true) :
    e.isSleepEntry = false := by
  cases e <;> simp_all [Event.isWaitEvent, Event.isSleepEntry]

/-! ### Deep-sleep sequence (C9, C10) -/

/-- C9: if the power button reads pressed on the first `n` polls and released on
the next one, the wait loop ends (given fuel for `n + 1` polls) after exactly
`n` iterations of `delay(50)` followed by `gpio.update()`, and the wake source
is armed exactly once, after the poll that read released. In every execution,
finished or still polling, a wake-arming call is preceded by a poll that read
released. -/
theorem startDeepSleep_arms_after_release (b : Board) (readings : Nat → Bool) (fuel : Nat) :
    (∀ n : Nat, (∀ i, i < n → readings i = true) → readings n = false → n < fuel →
      waitForRelease readings fuel 0 = (pressedPolls n ++ [Event.isPressed false], true) ∧
      (startDeepSleep b readings fuel).2 = true ∧
      (startDeepSleep b readings fuel).1
        = pressedPolls n ++ [Event.isPressed false] ++
          [Event.pinMode b.BUTTON_ADC_PIN_1 PinMode.INPUT_PULLDOWN,
           Event.pinMode b.BUTTON_ADC_PIN_2 PinMode.INPUT_PULLDOWN,
           Event.pinMode b.BAT_GPIO0 PinMode.INPUT_PULLDOWN,
           Event.gpio_hold_en b.BUTTON_ADC_PIN_1,
           Event.gpio_hold_en b.BUTTON_ADC_PIN_2,
           Event.gpio_hold_en b.BAT_GPIO0,
           Event.gpio_hold_en b.POWER_BUTTON_PIN,
           Event.gpio_deep_sleep_hold_en,
           Event.esp_deep_sleep_enable_gpio_wakeup ((1 <<< b.POWER_BUTTON_PIN) % 2 ^ 64)
             WakeLevel.ESP_GPIO_WAKEUP_GPIO_LOW,
           Event.esp_deep_sleep_start] ∧
      (startDeepSleep b readings fuel).1.count (Event.delay 50) = n ∧
      (startDeepSleep b readings fuel).1.count Event.update = n ∧
      (startDeepSleep b readings fuel).1.countP Event.isWakeArming = 1) ∧
    (∀ (p q : List Event) (mask : Nat) (level : WakeLevel),
      (startDeepSleep b readings fuel).1
        = p ++ Event.esp_deep_sleep_enable_gpio_wakeup mask level :: q →
      Event.isPressed false ∈ p) := by
  constructor
  · intro n hp hr hf
    have hw := waitForRelease_released readings n fuel 0
      (fun i hi => by simpa using hp i hi) (by simpa using hr) hf
    have ht : (startDeepSleep b readings fuel).1
        = pressedPolls n ++ [Event.isPressed false] ++
          [Event.pinMode b.BUTTON_ADC_PIN_1 PinMode.INPUT_PULLDOWN,
           Event.pinMode b.BUTTON_ADC_PIN_2 PinMode.INPUT_PULLDOWN,
           Event.pinMode b.BAT_GPIO0 PinMode.INPUT_PULLDOWN,
           Event.gpio_hold_en b.BUTTON_ADC_PIN_1,
           Event.gpio_hold_en b.BUTTON_ADC_PIN_2,
           Event.gpio_hold_en b.BAT_GPIO0,
           Event.gpio_hold_en b.POWER_BUTTON_PIN,
           Event.gpio_deep_sleep_hold_en,
           Event.esp_deep_sleep_enable_gpio_wakeup ((1 <<< b.POWER_BUTTON_PIN) % 2 ^ 64)
             WakeLevel.ESP_GPIO_WAKEUP_GPIO_LOW,
           Event.esp_deep_sleep_start] := by
      simp [startDeepSleep, hw]
    refine ⟨hw, by simp [startDeepSleep, hw], ht, ?_, ?_, ?_⟩
    · rw [ht]
      simp [List.count_append, List.count_cons, pressedPolls_count_delay]
    · rw [ht]
      simp [List.count_append, List.count_cons, pressedPolls_count_update]
    · rw [ht]
      simp [List.countP_append, List.countP_cons, pressedPolls_countP_wake, Event.isWakeArming]
  · intro p q mask level h
    have hev := waitForRelease_events readings fuel 0
    by_cases hdone : (waitForRelease readings fuel 0).2 = true
    · have hrel := waitForRelease_saw_release readings fuel 0 hdone
      simp only [startDeepSleep, hdone, if_true] at h
      rcases List.append_eq_append_iff.mp h with ⟨a, ha, _⟩ | ⟨c, hc, hb⟩
      · rw [ha]
        exact List.mem_append_left a hrel
      · cases c with
        | nil => simp at hb
        | cons x rest =>
            simp only [List.cons_append, List.cons.injEq] at hb
            have hx : x ∈ (waitForRelease readings fuel 0).1 := by
              rw [hc]; simp
            have := hev x hx
            rw [← hb.1] at this
            simp [Event.isWaitEvent] at this
    · simp only [startDeepSleep, hdone, Bool.false_eq_true, if_false] at h
      have hmem : Event.esp_deep_sleep_enable_gpio_wakeup mask level
          ∈ (waitForRelease readings fuel 0).1 := by
        rw [h]; simp
      have := hev _ hmem
      simp [Event.isWaitEvent] at this

/-- C9 witness: button held for three polls, three delays are issued. -/
theorem startDeepSleep_arms_after_release_witness :
    (startDeepSleep sampleBoard heldForThree 10).1.count (Event.delay 50) = 3 :=
  ((startDeepSleep_arms_after_release sampleBoard heldForThree 10).1 3
    (by decide) (by decide) (by decide)).2.2.2.1

/-- C10: whenever the button-release wait ends, the calls `startDeepSleep`
issues after the wait are exactly: the pull-down configuration of
`BUTTON_ADC_PIN_1`, `BUTTON_ADC_PIN_2`, `BAT_GPIO0`; the holds of
`BUTTON_ADC_PIN_1`, `BUTTON_ADC_PIN_2`, `BAT_GPIO0`, `POWER_BUTTON_PIN`; the
global deep-sleep hold; the arming of the wake source with mask
`1 << POWER_BUTTON_PIN` and low-level trigger; deep-sleep entry. The calls of the
wait itself are polls, delays and updates only, so in the whole trace every pin
configuration precedes every hold, every hold precedes the arming, the arming
precedes the entry, and the entry is the last call. -/
theorem startDeepSleep_sequence (b : Board) (readings : Nat → Bool) (fuel : Nat)
    (hdone : (waitForRelease readings fuel 0).2 = true) :
    (startDeepSleep b readings fuel).2 = true ∧
    (startDeepSleep b readings fuel).1
      = (waitForRelease readings fuel 0).1 ++
        [Event.pinMode b.BUTTON_ADC_PIN_1 PinMode.INPUT_PULLDOWN,
         Event.pinMode b.BUTTON_ADC_PIN_2 PinMode.INPUT_PULLDOWN,
         Event.pinMode b.BAT_GPIO0 PinMode.INPUT_PULLDOWN,
         Event.gpio_hold_en b.BUTTON_ADC_PIN_1,
         Event.gpio_hold_en b.BUTTON_ADC_PIN_2,
         Event.gpio_hold_en b.BAT_GPIO0,
         Event.gpio_hold_en b.POWER_BUTTON_PIN,
         Event.gpio_deep_sleep_hold_en,
         Event.esp_deep_sleep_enable_gpio_wakeup ((1 <<< b.POWER_BUTTON_PIN) % 2 ^ 64)
           WakeLevel.ESP_GPIO_WAKEUP_GPIO_LOW,
         Event.esp_deep_sleep_start] ∧
    (b.POWER_BUTTON_PIN < 64 → (1 <<< b.POWER_BUTTON_PIN) % 2 ^ 64 = 2 ^ b.POWER_BUTTON_PIN) ∧
    (∀ e ∈ (waitForRelease readings fuel 0).1, e.isWaitEvent = true) ∧
    allBefore Event.isPinConfig Event.isHold (startDeepSleep b readings fuel).1 = true ∧
    allBefore Event.isHold Event.isWakeArming (startDeepSleep b readings fuel).1 = true ∧
    allBefore Event.isWakeArming Event.isSleepEntry (startDeepSleep b readings fuel).1 = true ∧
    (startDeepSleep b readings fuel).1.getLast? = some Event.esp_deep_sleep_start := by
  have hev := waitForRelease_events readings fuel 0
  refine ⟨by simp [startDeepSleep, hdone], by simp [startDeepSleep, hdone], ?_, hev, ?_, ?_, ?_, ?_⟩
  · intro hlt
    rw [Nat.one_shiftLeft]
    exact Nat.mod_eq_of_lt (Nat.pow_lt_pow_right (by norm_num) hlt)
  · simp only [startDeepSleep, hdone, if_true]
    rw [allBefore_append_left _ _ _ _ (fun e he => isWaitEvent_not_hold e (hev e he))]
    rfl
  · simp only [startDeepSleep, hdone, if_true]
    rw [allBefore_append_left _ _ _ _ (fun e he => isWaitEvent_not_wake e (hev e he))]
    rfl
  · simp only [startDeepSleep, hdone, if_true]
    rw [allBefore_append_left _ _ _ _ (fun e he => isWaitEvent_not_entry e (hev e he))]
    rfl
  · simp only [startDeepSleep, hdone, if_true]
    simp [List.getLast?_append]

/-- C10 witness: button held for three polls, the last call is the deep-sleep entry. -/
theorem startDeepSleep_sequence_witness :
    (waitForRelease heldForThree 10 0).2 = true ∧
      (startDeepSleep sampleBoard heldForThree 10).1.getLast? = some Event.esp_deep_sleep_start :=
  ⟨by decide, (startDeepSleep_sequence sampleBoard heldForThree 10 (by decide)).2.2.2.2.2.2.2⟩

/-! ### Battery query (C11) -/

theorem getBatteryPercentageSeq_constructed (b : Board) (pin : Nat) (samples : List (Fin 101)) :
    ∀ s : BatteryState, s.battery = some { pin := pin } →
      getBatteryPercentageSeq b samples s
        = (samples.map (fun x => (x.val : Int)),
           { battery := some { pin := pin }, calls := s.calls ++ readCalls pin samples }) := by
  induction samples with
  | nil =>
      intro s hs
      rcases s with ⟨bat, calls⟩
      simp only at hs
      simp [getBatteryPercentageSeq, readCalls, hs]
  | cons x xs ih =>
      intro s hs
      have h1 : getBatteryPercentage b x s
          = ((x.val : Int),
             { battery := some { pin := pin },
               calls := s.calls ++ [BatteryCall.readPercentage pin (x.val : Int)] }) := by
        simp [getBatteryPercentage, hs, BatteryMonitor.readPercentage]
      simp only [getBatteryPercentageSeq, h1]
      rw [ih _ rfl]
      simp [readCalls]

theorem readCalls_countP_construct (pin : Nat) (samples : List (Fin 101)) :
    (readCalls pin samples).countP BatteryCall.isConstruct = 0 := by
  induction samples with
  | nil => rfl
  | cons x xs ih =>
      simp only [readCalls, List.map_cons] at ih ⊢
      simp [List.countP_cons, ih, BatteryCall.isConstruct]

/-- C11: for every sequence of one or more `getBatteryPercentage` calls made from
the state in which the sampler does not exist yet: the values returned are, call
by call, what `readPercentage()` answers at that call (nothing is cached), every
one of them lies in [0,100], and the calls made are the construction of the
sampler on `BAT_GPIO0`, once and first, followed by one `readPercentage()` per
call on that sampler. -/
theorem getBatteryPercentage_sequence (b : Board) (first : Fin 101) (rest : List (Fin 101)) :
    (getBatteryPercentageSeq b (first :: rest) BatteryState.fresh).1
      = (first :: rest).map (fun x => (x.val : Int)) ∧
    (∀ r ∈ (getBatteryPercentageSeq b (first :: rest) BatteryState.fresh).1, 0 ≤ r ∧ r ≤ 100) ∧
    (getBatteryPercentageSeq b (first :: rest) BatteryState.fresh).2.calls
      = BatteryCall.construct b.BAT_GPIO0 :: readCalls b.BAT_GPIO0 (first :: rest) ∧
    (getBatteryPercentageSeq b (first :: rest) BatteryState.fresh).2.calls.countP
      BatteryCall.isConstruct = 1 ∧
    (getBatteryPercentageSeq b (first :: rest) BatteryState.fresh).2.battery
      = some { pin := b.BAT_GPIO0 } := by
  have h1 : getBatteryPercentage b first BatteryState.fresh
      = ((first.val : Int),
         { battery := some { pin := b.BAT_GPIO0 },
           calls := [BatteryCall.construct b.BAT_GPIO0,
                     BatteryCall.readPercentage b.BAT_GPIO0 (first.val : Int)] }) := by
    simp [getBatteryPercentage, BatteryState.fresh, BatteryMonitor.readPercentage]
  have hseq : getBatteryPercentageSeq b (first :: rest) BatteryState.fresh
      = ((first :: rest).map (fun x => (x.val : Int)),
         { battery := some { pin := b.BAT_GPIO0 },
           calls := BatteryCall.construct b.BAT_GPIO0 ::
             readCalls b.BAT_GPIO0 (first :: rest) }) := by
    simp only [getBatteryPercentageSeq, h1]
    rw [getBatteryPercentageSeq_constructed b b.BAT_GPIO0 rest _ rfl]
    simp [readCalls]
  rw [hseq]
  refine ⟨rfl, ?_, rfl, ?_, rfl⟩
  · intro r hr
    simp only [List.mem_map] at hr
    obtain ⟨x, _, rfl⟩ := hr
    have := x.isLt
    omega
  · simp only [List.countP_cons, readCalls_countP_construct, BatteryCall.isConstruct]
    simp

/-- Three calls answering 87, 87 and 12: the sampler is constructed once, before
the first read. -/
theorem getBatteryPercentage_three_calls :
    getBatteryPercentageSeq sampleBoard [87, 87, 12] BatteryState.fresh
      = ([87, 87, 12],
         { battery := some { pin := 0 },
           calls := [BatteryCall.construct 0, BatteryCall.readPercentage 0 87,
                     BatteryCall.readPercentage 0 87, BatteryCall.readPercentage 0 12] }) := by
  decide

/-- C11 witness: over three calls the sampler is constructed exactly once. -/
theorem getBatteryPercentage_sequence_witness :
    (getBatteryPercentageSeq sampleBoard (87 :: [87, 12]) BatteryState.fresh).2.calls.countP
      BatteryCall.isConstruct = 1 :=
  (getBatteryPercentage_sequence sampleBoard 87 [87, 12]).2.2.2.1

end HalPower
